import Mathlib

/-!
Shallow embedding of the configuration layer of the aicore-router repository
(src/config.rs and the startup check in src/cli.rs), together with theorems
about it.  Rust `String`/`&str` values are modelled as `List Char`; Rust
`Option<T>` as `Option`; Rust `Result<T, anyhow::Error>` as `Except String`;
machine integers (`u16`, `u32`, `u64`, `usize`) as `Nat` with explicit
range checks where parsing matters.  Environment-variable reads
(`std::env::var`) are modelled by an explicit `Env` record of the variables
the code consults.
-/

namespace AicoreRouter

/-- Rust strings are modelled as lists of characters. -/
abbrev Str := List Char

/-- A single AI Core provider configuration (struct `Provider`, src/config.rs). -/
structure Provider where
  name : Str
  uaa_token_url : Str
  uaa_client_id : Str
  uaa_client_secret : Str
  genai_api_url : Str
  resource_group : Str
  weight : Nat
  enabled : Bool
deriving DecidableEq

/-- Provider configuration as read from the config file (struct `ProviderConfig`,
src/config.rs).  `resource_group` is optional in the file; `weight` defaults to 1
and `enabled` to true at deserialization time, but any `u32` weight written in
the file (including 0) survives parsing. -/
structure ProviderConfig where
  name : Str
  uaa_token_url : Str
  uaa_client_id : Str
  uaa_client_secret : Str
  genai_api_url : Str
  resource_group : Option Str
  weight : Nat
  enabled : Bool
deriving DecidableEq

/-- Legacy single-provider credentials (struct `Credentials`, src/config.rs). -/
structure Credentials where
  uaa_token_url : Option Str
  uaa_client_id : Option Str
  uaa_client_secret : Option Str
  aicore_api_url : Option Str
  api_key : Option Str
deriving DecidableEq

/-- A configured model (struct `Model`, src/config.rs). -/
structure Model where
  name : Str
  aicore_model_name : Option Str
  aliases : List Str
deriving DecidableEq

/-- Fallback models per model family (struct `FallbackModels`, src/config.rs). -/
structure FallbackModels where
  claude : Option Str
  openai : Option Str
  gemini : Option Str
deriving DecidableEq

/-- Load balancing strategy (enum `LoadBalancingStrategy`, src/config.rs). -/
inductive LoadBalancingStrategy where
  | RoundRobin
  | Fallback
deriving DecidableEq

/-- The parsed config file (struct `ConfigFile`, src/config.rs), i.e. the result
of YAML deserialization with serde defaults already applied. -/
structure ConfigFile where
  log_level : Option Str
  credentials : Option Credentials
  providers : List ProviderConfig
  port : Nat
  models : List Model
  resource_group : Option Str
  refresh_interval_secs : Option Nat
  fallback_models : FallbackModels
  api_keys : List Str
  load_balancing : LoadBalancingStrategy
  request_body_limit : Option Nat
deriving DecidableEq

/-- Runtime configuration (struct `Config`, src/config.rs). -/
structure Config where
  providers : List Provider
  api_keys : List Str
  port : Nat
  models : List Model
  log_level : Str
  refresh_interval_secs : Nat
  fallback_models : FallbackModels
  load_balancing : LoadBalancingStrategy
  request_body_limit : Option Nat
deriving DecidableEq

/-- The environment variables `Config::from_file_and_env` consults, each
`none` when unset.  `port`, `refresh_interval_secs` and `request_body_limit`
hold the raw string values; parsing is modelled separately. -/
structure Env where
  uaa_token_url : Option Str
  uaa_client_id : Option Str
  uaa_client_secret : Option Str
  genai_api_url : Option Str
  resource_group : Option Str
  api_key : Option Str
  api_keys : Option Str
  port : Option Str
  log_level : Option Str
  refresh_interval_secs : Option Str
  request_body_limit : Option Str
deriving DecidableEq

/-- `DEFAULT_PORT` from src/constants.rs (pinned by the test
`test_default_port` in src/config.rs). -/
def DEFAULT_PORT : Nat := 8900

/-- Default resource group (`default_resource_group`, src/config.rs, via
`DEFAULT_RESOURCE_GROUP` in constants.rs which is not among the given
sources).  The concrete value is immaterial to the claims proved below. -/
def default_resource_group : Str := ("default").toList

/-- Default log level (`default_log_level`, src/config.rs, via
`DEFAULT_LOG_LEVEL` in constants.rs which is not among the given sources).
The concrete value is immaterial to the claims proved below. -/
def default_log_level : Str := ("info").toList

/-- Default refresh interval (`default_refresh_interval_secs`, src/config.rs,
via `DEFAULT_REFRESH_INTERVAL_SECS` in constants.rs which is not among the
given sources).  The concrete value is immaterial to the claims proved
below. -/
def default_refresh_interval_secs : Nat := 300

/-- The literal path segment `/oauth/token`. -/
def oauthTokenPath : Str := ("/oauth/token").toList

/-- Rust `url.contains("/oauth/token")`: substring test, i.e. infix on the
character list. -/
def contains_oauth_token (url : Str) : Bool :=
  decide (oauthTokenPath <:+: url)

/-- Rust `url.ends_with('/')`. -/
def ends_with_slash (url : Str) : Bool :=
  decide ([ '/' ] <:+ url)

/-- `normalize_oauth_token_url` (src/config.rs, lines 190-198). -/
def normalize_oauth_token_url (url : Str) : Str :=
  if !contains_oauth_token url && !ends_with_slash url then
    url ++ ("/oauth/token").toList
  else if ends_with_slash url && !contains_oauth_token url then
    url ++ ("oauth/token").toList
  else
    url

/-- Conversion of a file `ProviderConfig` entry to a runtime `Provider`
(the loop body at src/config.rs lines 253-264). -/
def providerOfProviderConfig (p : ProviderConfig) : Provider :=
  { name := p.name
    uaa_token_url := normalize_oauth_token_url p.uaa_token_url
    uaa_client_id := p.uaa_client_id
    uaa_client_secret := p.uaa_client_secret
    genai_api_url := p.genai_api_url
    resource_group := p.resource_group.getD default_resource_group
    weight := p.weight
    enabled := p.enabled }

/-- `env::var(V).or_else(|_| credentials.as_ref().and_then(get).cloned().ok_or(..))`:
the environment value when set, otherwise the legacy-credentials field. -/
def pickSource (envVal : Option Str) (credField : Credentials → Option Str)
    (creds : Option Credentials) : Option Str :=
  match envVal with
  | some v => some v
  | none => creds.bind credField

/-- Whether all four fields required to build the legacy default provider are
available from the environment or the legacy credentials section. -/
def legacyAllAvailable (env : Env) (fc : ConfigFile) : Bool :=
  (pickSource env.uaa_token_url Credentials.uaa_token_url fc.credentials).isSome &&
  (pickSource env.uaa_client_id Credentials.uaa_client_id fc.credentials).isSome &&
  (pickSource env.uaa_client_secret Credentials.uaa_client_secret fc.credentials).isSome &&
  (pickSource env.genai_api_url Credentials.aicore_api_url fc.credentials).isSome

/-- The legacy/env default-provider construction
(src/config.rs lines 266-330): each required field is taken from its
environment variable, falling back to the legacy `credentials` section, with
an error when neither source has it; the token URL is normalized. -/
def buildLegacyProvider (env : Env) (fc : ConfigFile) : Except String Provider :=
  match pickSource env.uaa_token_url Credentials.uaa_token_url fc.credentials with
  | none => .error ("uaa_token_url is required in config file or UAA_TOKEN_URL env var")
  | some tok =>
    match pickSource env.uaa_client_id Credentials.uaa_client_id fc.credentials with
    | none => .error ("uaa_client_id is required in config file or UAA_CLIENT_ID env var")
    | some cid =>
      match pickSource env.uaa_client_secret Credentials.uaa_client_secret fc.credentials with
      | none => .error ("uaa_client_secret is required in config file or UAA_CLIENT_SECRET env var")
      | some sec =>
        match pickSource env.genai_api_url Credentials.aicore_api_url fc.credentials with
        | none => .error ("aicore_api_url is required in config file or GENAI_API_URL env var")
        | some url =>
          .ok { name := ("default").toList
                uaa_token_url := normalize_oauth_token_url tok
                uaa_client_id := cid
                uaa_client_secret := sec
                genai_api_url := url
                resource_group :=
                  (env.resource_group.or fc.resource_group).getD default_resource_group
                weight := 1
                enabled := true }

/-- The providers list built by `from_file_and_env`: the file's providers
when present, otherwise the single legacy/env default provider. -/
def buildProviders (env : Env) (fc : ConfigFile) : Except String (List Provider) :=
  if fc.providers.isEmpty then
    (buildLegacyProvider env fc).map (fun p => [p])
  else
    .ok (fc.providers.map providerOfProviderConfig)

/-- Rust `str::trim` (ASCII whitespace; Rust trims full Unicode
`White_Space`, which the claims below never exercise). -/
def trim (s : Str) : Str :=
  ((s.dropWhile Char.isWhitespace).reverse.dropWhile Char.isWhitespace).reverse

/-- The API-key list gathered, in order, from the `API_KEY` env var, the
comma-separated `API_KEYS` env var (entries trimmed, empties dropped), the
config-file `api_keys`, and the legacy `credentials.api_key` (pushed only
when not already present) — src/config.rs lines 337-362, before
de-duplication. -/
def collect_api_keys (env : Env) (fc : ConfigFile) : List Str :=
  let k0 : List Str :=
    match env.api_key with
    | some k => [k]
    | none => []
  let k1 : List Str :=
    k0 ++ (match env.api_keys with
           | some s => ((s.splitOn ',').map trim).filter (fun t => !t.isEmpty)
           | none => [])
  let k2 : List Str := k1 ++ fc.api_keys
  match fc.credentials with
  | some c =>
    match c.api_key with
    | some k => if k2.contains k then k2 else k2 ++ [k]
    | none => k2
  | none => k2

/-- `api_keys.retain(|k| seen.insert(k.clone()))` with `seen` the set of keys
already kept: drop every element that occurred earlier (src/config.rs
lines 364-366). -/
def retainUnseen {α : Type} [DecidableEq α] (seen : List α) : List α → List α
  | [] => []
  | k :: rest =>
    if k ∈ seen then retainUnseen seen rest
    else k :: retainUnseen (k :: seen) rest

/-- Order-preserving de-duplication keeping the first occurrence of each
element. -/
def dedupFirst {α : Type} [DecidableEq α] (l : List α) : List α :=
  retainUnseen [] l

/-- The set of elements seen after scanning a list, threaded through
`retainUnseen`. -/
def addSeen {α : Type} [DecidableEq α] (seen : List α) : List α → List α
  | [] => seen
  | k :: rest =>
    if k ∈ seen then addSeen seen rest
    else addSeen (k :: seen) rest

/-- Digit-string to number (helper for Rust `str::parse` on unsigned
integers). -/
def parseDigits (s : Str) : Option Nat :=
  if s.isEmpty then none
  else if s.all Char.isDigit then
    some (s.foldl (fun a c => a * 10 + (c.toNat - ('0').toNat)) 0)
  else none

/-- Rust `s.parse::<uN>().ok()` for an unsigned integer type with exclusive
upper bound `bound`: optional leading `+`, then decimal digits, rejecting
overflow. -/
def rustParseUnsigned (bound : Nat) (s : Str) : Option Nat :=
  (match s with
   | '+' :: rest => parseDigits rest
   | _ => parseDigits s).bind
    (fun n => if n < bound then some n else none)

/-- `Config::from_file_and_env` (src/config.rs lines 248-410). -/
def from_file_and_env (env : Env) (fc : ConfigFile) : Except String Config :=
  match buildProviders env fc with
  | .error e => .error e
  | .ok providers =>
    let api_keys := dedupFirst (collect_api_keys env fc)
    if api_keys.isEmpty then
      .error ("At least one API key is required. Set via API_KEY/API_KEYS env var or api_keys in config file")
    else
      .ok { providers := providers
            api_keys := api_keys
            port := (env.port.bind (rustParseUnsigned 65536)).getD fc.port
            models := fc.models
            log_level := (env.log_level.or fc.log_level).getD default_log_level
            refresh_interval_secs :=
              ((env.refresh_interval_secs.bind (rustParseUnsigned (2 ^ 64))).or
                fc.refresh_interval_secs).getD default_refresh_interval_secs
            fallback_models := fc.fallback_models
            load_balancing := fc.load_balancing
            request_body_limit :=
              (env.request_body_limit.bind (rustParseUnsigned (2 ^ 64))).or
                fc.request_body_limit }

/-- `Config::get_aicore_model_name` (src/config.rs lines 225-231): the
`aicore_model_name` of the first configured model whose canonical name
equals `model_name`; `none` when no model matches or when the matching
model has no `aicore_model_name`. -/
def get_aicore_model_name (c : Config) (model_name : Str) : Option Str :=
  (c.models.find? (fun m => m.name == model_name)).bind
    (fun m => m.aicore_model_name)

/-- Model family prefix for the Claude family.  Modelled from the spec:
src/constants.rs (`CLAUDE_PREFIX`) is not among the given sources; the spec
gives the family prefix set as claude, gpt, text, gemini. -/
def claudePfx : Str := ("claude").toList

/-- Model family prefix for the OpenAI GPT family.  Modelled from the spec:
src/constants.rs (`GPT_PREFIX`) is not among the given sources. -/
def gptPfx : Str := ("gpt").toList

/-- Model family prefix for the OpenAI text family.  Modelled from the spec:
src/constants.rs (`TEXT_PREFIX`) is not among the given sources. -/
def textPfx : Str := ("text").toList

/-- Model family prefix for the Gemini family.  Modelled from the spec:
src/constants.rs (`GEMINI_PREFIX`) is not among the given sources. -/
def geminiPfx : Str := ("gemini").toList

/-- `Config::get_fallback_model` (src/config.rs lines 238-246). -/
def get_fallback_model (c : Config) (pfx : Str) : Option Str :=
  if pfx = claudePfx then c.fallback_models.claude
  else if pfx = gptPfx ∨ pfx = textPfx then c.fallback_models.openai
  else if pfx = geminiPfx then c.fallback_models.gemini
  else none

/-- Modelled from the spec: `LoadBalancer::is_empty` (src/balancer.rs is not
among the given sources); per spec section 4.3, it reports whether any
enabled provider exists. -/
def loadBalancer_is_empty (providers : List Provider) : Bool :=
  !(providers.any (fun p => p.enabled))

/-- The externally observable startup effects of `Cli::run_server`
(src/cli.rs): starting the model registry, binding the TCP listener, and
serving. -/
inductive ServerEffect where
  | startModelRegistry
  | bindListener
  | serve
deriving DecidableEq

/-- Effect-trace model of `Cli::run_server` (src/cli.rs lines 102-196).  The
async IO is abstracted: `registryStartOk` and `bindOk` stand for the
outcomes of `model_registry.start()` and `TcpListener::bind`; the result is
the ordered list of startup effects attempted together with the error, if
any, that `run_server` returns.  The enabled-provider check
(`load_balancer.is_empty()`, src/cli.rs lines 138-140) happens before the
registry is started and before the listener is bound. -/
def run_server (config : Config) (registryStartOk : Bool) (bindOk : Bool) :
    List ServerEffect × Option String :=
  if loadBalancer_is_empty config.providers then
    ([], some ("No enabled providers configured"))
  else if !registryStartOk then
    ([ServerEffect.startModelRegistry], some ("Failed to start model registry"))
  else if !bindOk then
    ([ServerEffect.startModelRegistry, ServerEffect.bindListener],
      some ("Failed to bind to address"))
  else
    ([ServerEffect.startModelRegistry, ServerEffect.bindListener, ServerEffect.serve],
      none)

theorem contains_oauth_token_iff (u : Str) :
    contains_oauth_token u = true ↔ oauthTokenPath <:+: u := by
  simp [contains_oauth_token]

theorem ends_with_slash_iff (u : Str) :
    ends_with_slash u = true ↔ [ '/' ] <:+ u := by
  simp [ends_with_slash]

theorem normalize_of_contains (u : Str) (h : contains_oauth_token u = true) :
    normalize_oauth_token_url u = u := by
  simp [normalize_oauth_token_url, h]

theorem normalize_of_no_slash (u : Str) (hc : contains_oauth_token u = false)
    (hs : ends_with_slash u = false) :
    normalize_oauth_token_url u = u ++ ("/oauth/token").toList := by
  simp [normalize_oauth_token_url, hc, hs]

theorem normalize_of_slash (u : Str) (hc : contains_oauth_token u = false)
    (hs : ends_with_slash u = true) :
    normalize_oauth_token_url u = u ++ ("oauth/token").toList := by
  simp [normalize_oauth_token_url, hc, hs]

theorem oauthTokenPath_cons : oauthTokenPath = '/' :: ("oauth/token").toList := by
  decide

theorem infix_normalize (u : Str) :
    oauthTokenPath <:+: normalize_oauth_token_url u := by
  cases hc : contains_oauth_token u with
  | true =>
    rw [normalize_of_contains u hc]
    exact (contains_oauth_token_iff u).mp hc
  | false =>
    cases hs : ends_with_slash u with
    | false =>
      rw [normalize_of_no_slash u hc hs]
      exact (List.suffix_append u oauthTokenPath).isInfix
    | true =>
      rw [normalize_of_slash u hc hs]
      obtain ⟨t, ht⟩ := (ends_with_slash_iff u).mp hs
      have hrw : u ++ ("oauth/token").toList = t ++ oauthTokenPath := by
        rw [← ht, oauthTokenPath_cons, List.append_assoc]
        rfl
      rw [hrw]
      exact (List.suffix_append t oauthTokenPath).isInfix

theorem contains_normalize (u : Str) :
    contains_oauth_token (normalize_oauth_token_url u) = true :=
  (contains_oauth_token_iff _).mpr (infix_normalize u)

/-- C9: `normalize_oauth_token_url` is idempotent: applying it twice gives the
same result as applying it once, for every string. -/
theorem normalize_oauth_token_url_idempotent (u : Str) :
    normalize_oauth_token_url (normalize_oauth_token_url u) =
      normalize_oauth_token_url u :=
  normalize_of_contains _ (contains_normalize u)

theorem except_cases {ε α : Type} (x : Except ε α) :
    (∃ e, x = .error e) ∨ (∃ a, x = .ok a) := by
  cases x with
  | error e => exact Or.inl ⟨e, rfl⟩
  | ok a => exact Or.inr ⟨a, rfl⟩

theorem retainUnseen_cons {α : Type} [DecidableEq α] (seen : List α) (k : α)
    (rest : List α) :
    retainUnseen seen (k :: rest) =
      if k ∈ seen then retainUnseen seen rest
      else k :: retainUnseen (k :: seen) rest := rfl

theorem addSeen_cons {α : Type} [DecidableEq α] (seen : List α) (k : α)
    (rest : List α) :
    addSeen seen (k :: rest) =
      if k ∈ seen then addSeen seen rest else addSeen (k :: seen) rest := rfl

theorem dedupFirst_eq_nil_iff {α : Type} [DecidableEq α] (l : List α) :
    dedupFirst l = [] ↔ l = [] := by
  cases l with
  | nil => simp [dedupFirst, retainUnseen]
  | cons k rest => simp [dedupFirst, retainUnseen]

theorem buildProviders_nonempty (env : Env) (fc : ConfigFile)
    (h : fc.providers ≠ []) :
    buildProviders env fc = .ok (fc.providers.map providerOfProviderConfig) := by
  unfold buildProviders
  rw [if_neg]
  simp [List.isEmpty_iff, h]

theorem buildProviders_empty (env : Env) (fc : ConfigFile)
    (h : fc.providers = []) :
    buildProviders env fc = (buildLegacyProvider env fc).map (fun p => [p]) := by
  unfold buildProviders
  rw [if_pos]
  simp [h]

theorem ffe_ok_inv (env : Env) (fc : ConfigFile) (cfg : Config)
    (h : from_file_and_env env fc = .ok cfg) :
    buildProviders env fc = .ok cfg.providers ∧
    cfg.api_keys = dedupFirst (collect_api_keys env fc) ∧
    cfg.models = fc.models ∧
    cfg.fallback_models = fc.fallback_models := by
  unfold from_file_and_env at h
  cases hb : buildProviders env fc with
  | error e =>
    rw [hb] at h
    simp at h
  | ok provs =>
    rw [hb] at h
    simp only at h
    by_cases hk : (dedupFirst (collect_api_keys env fc)).isEmpty = true
    · rw [if_pos hk] at h
      simp at h
    · rw [if_neg hk] at h
      injection h with h'
      subst h'
      exact ⟨rfl, rfl, rfl, rfl⟩

theorem ffe_error_iff (env : Env) (fc : ConfigFile) :
    (∃ e, from_file_and_env env fc = .error e) ↔
      ((∃ e, buildProviders env fc = .error e) ∨ collect_api_keys env fc = []) := by
  unfold from_file_and_env
  cases hb : buildProviders env fc with
  | error e =>
    simp
  | ok provs =>
    simp only
    by_cases hk : (dedupFirst (collect_api_keys env fc)).isEmpty = true
    · rw [if_pos hk]
      simp only [List.isEmpty_iff] at hk
      simp [(dedupFirst_eq_nil_iff _).mp hk]
    · rw [if_neg hk]
      simp only [List.isEmpty_iff] at hk
      have : ¬ collect_api_keys env fc = [] := by
        intro hc
        exact hk ((dedupFirst_eq_nil_iff _).mpr hc)
      simp [this]

theorem buildLegacyProvider_ok_inv (env : Env) (fc : ConfigFile) (p : Provider)
    (h : buildLegacyProvider env fc = .ok p) :
    legacyAllAvailable env fc = true ∧
    p = { name := ("default").toList
          uaa_token_url := normalize_oauth_token_url
            ((pickSource env.uaa_token_url Credentials.uaa_token_url fc.credentials).getD [])
          uaa_client_id :=
            (pickSource env.uaa_client_id Credentials.uaa_client_id fc.credentials).getD []
          uaa_client_secret :=
            (pickSource env.uaa_client_secret Credentials.uaa_client_secret fc.credentials).getD []
          genai_api_url :=
            (pickSource env.genai_api_url Credentials.aicore_api_url fc.credentials).getD []
          resource_group :=
            (env.resource_group.or fc.resource_group).getD default_resource_group
          weight := 1
          enabled := true } := by
  unfold buildLegacyProvider at h
  cases h1 : pickSource env.uaa_token_url Credentials.uaa_token_url fc.credentials with
  | none => rw [h1] at h; simp at h
  | some tok =>
    cases h2 : pickSource env.uaa_client_id Credentials.uaa_client_id fc.credentials with
    | none => rw [h1, h2] at h; simp at h
    | some cid =>
      cases h3 : pickSource env.uaa_client_secret Credentials.uaa_client_secret fc.credentials with
      | none => rw [h1, h2, h3] at h; simp at h
      | some sec =>
        cases h4 : pickSource env.genai_api_url Credentials.aicore_api_url fc.credentials with
        | none => rw [h1, h2, h3, h4] at h; simp at h
        | some url =>
          rw [h1, h2, h3, h4] at h
          simp only at h
          injection h with h'
          subst h'
          exact ⟨by simp [legacyAllAvailable, h1, h2, h3, h4], rfl⟩

theorem buildLegacyProvider_error_of_missing (env : Env) (fc : ConfigFile)
    (h : legacyAllAvailable env fc = false) :
    ∃ e, buildLegacyProvider env fc = .error e := by
  rcases except_cases (buildLegacyProvider env fc) with he | ⟨p, hp⟩
  · exact he
  · have := (buildLegacyProvider_ok_inv env fc p hp).1
    rw [this] at h
    exact absurd h (by simp)

theorem mem_retainUnseen {α : Type} [DecidableEq α] (seen l : List α) (a : α) :
    a ∈ retainUnseen seen l ↔ a ∈ l ∧ a ∉ seen := by
  induction l generalizing seen with
  | nil => simp [retainUnseen]
  | cons k rest ih =>
    rw [retainUnseen_cons]
    by_cases hk : k ∈ seen
    · rw [if_pos hk, ih]
      constructor
      · rintro ⟨ha, hna⟩
        exact ⟨List.mem_cons_of_mem k ha, hna⟩
      · rintro ⟨ha, hna⟩
        rcases List.mem_cons.mp ha with rfl | ha'
        · exact absurd hk hna
        · exact ⟨ha', hna⟩
    · rw [if_neg hk]
      constructor
      · intro hmem
        rcases List.mem_cons.mp hmem with rfl | hmem'
        · exact ⟨List.mem_cons_self a rest, hk⟩
        · have := (ih (k :: seen)).mp hmem'
          exact ⟨List.mem_cons_of_mem k this.1,
                 fun hs => this.2 (List.mem_cons_of_mem k hs)⟩
      · rintro ⟨ha, hna⟩
        rcases List.mem_cons.mp ha with rfl | ha'
        · exact List.mem_cons_self a _
        · by_cases hak : a = k
          · subst hak
            exact List.mem_cons_self a _
          · refine List.mem_cons_of_mem k ((ih (k :: seen)).mpr ⟨ha', ?_⟩)
            intro hs
            rcases List.mem_cons.mp hs with h' | h'
            · exact hak h'
            · exact hna h'

theorem nodup_retainUnseen {α : Type} [DecidableEq α] (seen l : List α) :
    (retainUnseen seen l).Nodup := by
  induction l generalizing seen with
  | nil => simp [retainUnseen]
  | cons k rest ih =>
    rw [retainUnseen_cons]
    by_cases hk : k ∈ seen
    · rw [if_pos hk]
      exact ih seen
    · rw [if_neg hk]
      refine List.Nodup.cons ?_ (ih (k :: seen))
      intro hmem
      exact ((mem_retainUnseen _ _ _).mp hmem).2 (List.mem_cons_self k seen)

theorem retainUnseen_sublist {α : Type} [DecidableEq α] (seen l : List α) :
    List.Sublist (retainUnseen seen l) l := by
  induction l generalizing seen with
  | nil => simp [retainUnseen]
  | cons k rest ih =>
    rw [retainUnseen_cons]
    by_cases hk : k ∈ seen
    · rw [if_pos hk]
      exact (ih seen).trans (List.sublist_cons_self k rest)
    · rw [if_neg hk]
      exact (ih (k :: seen)).cons₂ k

theorem mem_addSeen {α : Type} [DecidableEq α] (seen l : List α) (a : α) :
    a ∈ addSeen seen l ↔ a ∈ seen ∨ a ∈ l := by
  induction l generalizing seen with
  | nil => simp [addSeen]
  | cons k rest ih =>
    rw [addSeen_cons]
    by_cases hk : k ∈ seen
    · rw [if_pos hk, ih]
      constructor
      · rintro (hs | hr)
        · exact Or.inl hs
        · exact Or.inr (List.mem_cons_of_mem k hr)
      · rintro (hs | hr)
        · exact Or.inl hs
        · rcases List.mem_cons.mp hr with rfl | hr'
          · exact Or.inl hk
          · exact Or.inr hr'
    · rw [if_neg hk, ih]
      constructor
      · rintro (hs | hr)
        · rcases List.mem_cons.mp hs with rfl | hs'
          · exact Or.inr (List.mem_cons_self a rest)
          · exact Or.inl hs'
        · exact Or.inr (List.mem_cons_of_mem k hr)
      · rintro (hs | hr)
        · exact Or.inl (List.mem_cons_of_mem k hs)
        · rcases List.mem_cons.mp hr with rfl | hr'
          · exact Or.inl (List.mem_cons_self a seen)
          · exact Or.inr hr'

theorem retainUnseen_append {α : Type} [DecidableEq α] (seen l₁ l₂ : List α) :
    retainUnseen seen (l₁ ++ l₂) =
      retainUnseen seen l₁ ++ retainUnseen (addSeen seen l₁) l₂ := by
  induction l₁ generalizing seen with
  | nil => rfl
  | cons k rest ih =>
    rw [List.cons_append, retainUnseen_cons, retainUnseen_cons, addSeen_cons]
    by_cases hk : k ∈ seen
    · rw [if_pos hk, if_pos hk, if_pos hk, ih]
    · rw [if_neg hk, if_neg hk, if_neg hk, ih, List.cons_append]

theorem contains_oauth_token_eq_false (u : Str) (h : ¬ oauthTokenPath <:+: u) :
    contains_oauth_token u = false := by
  simp [contains_oauth_token, h]

theorem ends_with_slash_eq_false (u : Str) (h : ¬ ([ '/' ] <:+ u)) :
    ends_with_slash u = false := by
  simp [ends_with_slash, h]

theorem buildLegacyProvider_ok_of_available (env : Env) (fc : ConfigFile)
    (h : legacyAllAvailable env fc = true) :
    ∃ p, buildLegacyProvider env fc = .ok p := by
  unfold legacyAllAvailable at h
  simp only [Bool.and_eq_true, Option.isSome_iff_exists] at h
  obtain ⟨⟨⟨⟨tok, h1⟩, cid, h2⟩, sec, h3⟩, url, h4⟩ := h
  unfold buildLegacyProvider
  rw [h1, h2, h3, h4]
  exact ⟨_, rfl⟩

theorem ffe_error_of_buildProviders_error (env : Env) (fc : ConfigFile)
    (e : String) (h : buildProviders env fc = .error e) :
    from_file_and_env env fc = .error e := by
  unfold from_file_and_env
  rw [h]

theorem find?_append_of_none {α : Type} (p : α → Bool) (l₁ l₂ : List α)
    (h1 : ∀ y ∈ l₁, p y = false) :
    List.find? p (l₁ ++ l₂) = List.find? p l₂ := by
  induction l₁ with
  | nil => rfl
  | cons a as ih =>
    rw [List.cons_append,
        List.find?_cons_of_neg _ (by simp [h1 a (List.mem_cons_self a as)])]
    exact ih (fun y hy => h1 y (List.mem_cons_of_mem a hy))

/-- C1 (amended): `Config::get_aicore_model_name` returns the
`aicore_model_name` of the first configured model whose canonical name equals
`model_name`, still as an `Option`: it yields that entry's upstream name when
set and `none` when the matching entry has no `aicore_model_name` (callers
then fall back to the canonical name themselves); it also yields `none` when
no entry's name equals `model_name`. -/
theorem C1_get_aicore_model_name_first_match :
    ∀ (c : Config) (model_name : Str),
      ((∀ m ∈ c.models, m.name ≠ model_name) →
        get_aicore_model_name c model_name = none)
    ∧ (∀ (l₁ : List Model) (m : Model) (l₂ : List Model),
        c.models = l₁ ++ m :: l₂ →
        (∀ m' ∈ l₁, m'.name ≠ model_name) →
        m.name = model_name →
        get_aicore_model_name c model_name = m.aicore_model_name) := by
  intro c model_name
  constructor
  · intro h
    unfold get_aicore_model_name
    rw [List.find?_eq_none.mpr]
    · rfl
    · intro m hm
      simp [beq_iff_eq]
      exact h m hm
  · intro l₁ m l₂ hc h1 hm
    unfold get_aicore_model_name
    rw [hc, find?_append_of_none _ l₁ (m :: l₂)
          (fun y hy => by simp [beq_iff_eq]; exact h1 y hy),
        List.find?_cons_of_pos _ (by simp [beq_iff_eq, hm])]
    rfl

/-- C2: `normalize_oauth_token_url` returns its argument unchanged when it
already contains `/oauth/token`; otherwise it appends `oauth/token` reusing an
existing trailing slash, or appends `/oauth/token` when there is none.
`from_file_and_env` applies it to every provider's `uaa_token_url` once at
config-load time, so every provider of a successfully loaded `Config` has a
token URL containing `/oauth/token`. -/
theorem C2_token_url_normalization :
    (∀ u : Str, oauthTokenPath <:+: u → normalize_oauth_token_url u = u)
  ∧ (∀ u : Str, ¬ oauthTokenPath <:+: u → [ '/' ] <:+ u →
      normalize_oauth_token_url u = u ++ ("oauth/token").toList)
  ∧ (∀ u : Str, ¬ oauthTokenPath <:+: u → ¬ ([ '/' ] <:+ u) →
      normalize_oauth_token_url u = u ++ ("/oauth/token").toList)
  ∧ (∀ (env : Env) (fc : ConfigFile) (cfg : Config),
      from_file_and_env env fc = .ok cfg → fc.providers ≠ [] →
      cfg.providers.map (fun p => p.uaa_token_url) =
        fc.providers.map (fun p => normalize_oauth_token_url p.uaa_token_url))
  ∧ (∀ (env : Env) (fc : ConfigFile) (cfg : Config),
      from_file_and_env env fc = .ok cfg →
      ∀ p ∈ cfg.providers, oauthTokenPath <:+: p.uaa_token_url) := by
  refine ⟨?_, ?_, ?_, ?_, ?_⟩
  · intro u h
    exact normalize_of_contains u ((contains_oauth_token_iff u).mpr h)
  · intro u hc hs
    exact normalize_of_slash u (contains_oauth_token_eq_false u hc)
      ((ends_with_slash_iff u).mpr hs)
  · intro u hc hs
    exact normalize_of_no_slash u (contains_oauth_token_eq_false u hc)
      (ends_with_slash_eq_false u hs)
  · intro env fc cfg h hne
    have hb := (ffe_ok_inv env fc cfg h).1
    rw [buildProviders_nonempty env fc hne] at hb
    injection hb with hb'
    rw [← hb', List.map_map]
    rfl
  · intro env fc cfg h p hp
    have hb := (ffe_ok_inv env fc cfg h).1
    by_cases hne : fc.providers = []
    · rw [buildProviders_empty env fc hne] at hb
      rcases except_cases (buildLegacyProvider env fc) with ⟨e, he⟩ | ⟨p0, hp0⟩
      · rw [he] at hb
        simp [Except.map] at hb
      · rw [hp0] at hb
        simp only [Except.map] at hb
        injection hb with hb'
        rw [← hb'] at hp
        have hpp : p = p0 := List.mem_singleton.mp hp
        rw [hpp, (buildLegacyProvider_ok_inv env fc p0 hp0).2]
        exact infix_normalize _
    · rw [buildProviders_nonempty env fc hne] at hb
      injection hb with hb'
      rw [← hb'] at hp
      obtain ⟨q, _, rfl⟩ := List.mem_map.mp hp
      exact infix_normalize _

/-- C3: the API-key list of a successfully loaded `Config` is the gathered
source list (API_KEY env, then API_KEYS env split on commas with entries
trimmed and empties dropped, then file `api_keys`, then legacy
`credentials.api_key`) de-duplicated keeping first occurrences: it has no
duplicates, is an order-preserving sublist of the gathered list, contains
exactly the gathered keys, and each key sits at the position of its first
occurrence (after the distinct keys gathered before it). -/
theorem C3_api_keys_dedup :
    ∀ (env : Env) (fc : ConfigFile) (cfg : Config),
      from_file_and_env env fc = .ok cfg →
      cfg.api_keys.Nodup
      ∧ List.Sublist cfg.api_keys (collect_api_keys env fc)
      ∧ (∀ k, k ∈ cfg.api_keys ↔ k ∈ collect_api_keys env fc)
      ∧ (∀ (pre : List Str) (k : Str) (post : List Str),
          collect_api_keys env fc = pre ++ k :: post → k ∉ pre →
          ∃ tail, cfg.api_keys = dedupFirst pre ++ k :: tail) := by
  intro env fc cfg h
  have hk := (ffe_ok_inv env fc cfg h).2.1
  refine ⟨?_, ?_, ?_, ?_⟩
  · rw [hk]
    exact nodup_retainUnseen [] _
  · rw [hk]
    exact retainUnseen_sublist [] _
  · intro k
    rw [hk]
    simp [dedupFirst, mem_retainUnseen]
  · intro pre k post hcol hkpre
    rw [hk, hcol]
    unfold dedupFirst
    rw [retainUnseen_append, retainUnseen_cons, if_neg]
    · exact ⟨_, rfl⟩
    · intro hmem
      rcases (mem_addSeen [] pre k).mp hmem with h' | h'
      · simp at h'
      · exact hkpre h'

/-- C4: `from_file_and_env` fails exactly when the inputs cannot produce a
provider (empty providers array and a missing legacy/env credential field) or
cannot produce a non-empty API-key list; consequently every successfully
loaded `Config` has a non-empty `api_keys`. -/
theorem C4_api_key_required :
    ∀ (env : Env) (fc : ConfigFile),
      ((∃ e, from_file_and_env env fc = .error e) ↔
        ((fc.providers = [] ∧ legacyAllAvailable env fc = false) ∨
          collect_api_keys env fc = []))
    ∧ (∀ cfg, from_file_and_env env fc = .ok cfg → cfg.api_keys ≠ []) := by
  intro env fc
  constructor
  · rw [ffe_error_iff]
    have hbp : (∃ e, buildProviders env fc = .error e) ↔
        (fc.providers = [] ∧ legacyAllAvailable env fc = false) := by
      by_cases hp : fc.providers = []
      · rw [buildProviders_empty env fc hp]
        constructor
        · rintro ⟨e, he⟩
          refine ⟨hp, ?_⟩
          cases hl : legacyAllAvailable env fc with
          | false => rfl
          | true =>
            obtain ⟨p, hpk⟩ := buildLegacyProvider_ok_of_available env fc hl
            rw [hpk] at he
            simp [Except.map] at he
        · rintro ⟨-, hl⟩
          obtain ⟨e, he⟩ := buildLegacyProvider_error_of_missing env fc hl
          rw [he]
          exact ⟨e, rfl⟩
      · rw [buildProviders_nonempty env fc hp]
        simp [hp]
    rw [hbp]
  · intro cfg hok hnil
    have hk := (ffe_ok_inv env fc cfg hok).2.1
    rw [hnil] at hk
    have hcol : collect_api_keys env fc = [] :=
      (dedupFirst_eq_nil_iff _).mp hk.symm
    have herr := (ffe_error_iff env fc).mpr (Or.inr hcol)
    obtain ⟨e, he⟩ := herr
    rw [hok] at he
    simp at he

/-- C5: startup is fatal without an enabled provider: when the file's
providers array is empty and neither the UAA_TOKEN_URL env var nor a legacy
credentials section is present, loading fails; and when no provider of the
loaded `Config` is enabled, `run_server` returns the error
"No enabled providers configured" having attempted no startup effect — in
particular neither starting the model registry nor binding the listener. -/
theorem C5_enabled_provider_required :
    ∀ (env : Env) (fc : ConfigFile) (cfg : Config) (r b : Bool),
      (fc.providers = [] → env.uaa_token_url = none → fc.credentials = none →
        ∃ e, from_file_and_env env fc = .error e)
    ∧ ((∀ p ∈ cfg.providers, p.enabled = false) →
        run_server cfg r b = ([], some ("No enabled providers configured"))) := by
  intro env fc cfg r b
  constructor
  · intro hp henv hcred
    have hfail : legacyAllAvailable env fc = false := by
      simp [legacyAllAvailable, pickSource, henv, hcred]
    obtain ⟨e, he⟩ := buildLegacyProvider_error_of_missing env fc hfail
    refine ⟨e, ffe_error_of_buildProviders_error env fc e ?_⟩
    rw [buildProviders_empty env fc hp, he]
    rfl
  · intro h
    have hany : cfg.providers.any (fun p => p.enabled) = false :=
      List.any_eq_false.mpr (fun p hp => by simp [h p hp])
    simp [run_server, loadBalancer_is_empty, hany]

/-- C6 (amended): `from_file_and_env` copies each file provider's weight
verbatim into the loaded `Config` (the legacy default provider gets weight 1);
weights are not clamped, so a weight of 0 written in the file survives loading
and the invariant weight ≥ 1 only holds when the file's weights satisfy it. -/
theorem C6_weight_passthrough :
    ∀ (env : Env) (fc : ConfigFile) (cfg : Config),
      from_file_and_env env fc = .ok cfg →
      cfg.providers.map (fun p => p.weight) =
        if fc.providers = [] then [1]
        else fc.providers.map (fun p => p.weight) := by
  intro env fc cfg h
  have hb := (ffe_ok_inv env fc cfg h).1
  by_cases hne : fc.providers = []
  · rw [if_pos hne]
    rw [buildProviders_empty env fc hne] at hb
    rcases except_cases (buildLegacyProvider env fc) with ⟨e, he⟩ | ⟨p0, hp0⟩
    · rw [he] at hb
      simp [Except.map] at hb
    · rw [hp0] at hb
      simp only [Except.map] at hb
      injection hb with hb'
      rw [← hb', (buildLegacyProvider_ok_inv env fc p0 hp0).2]
      rfl
  · rw [if_neg hne]
    rw [buildProviders_nonempty env fc hne] at hb
    injection hb with hb'
    rw [← hb', List.map_map]
    rfl

/-- C7 (amended): `from_file_and_env` copies provider names verbatim from the
file (the legacy branch produces the single name "default") and performs no
uniqueness check, so the names of a loaded `Config` are pairwise distinct
exactly when the file's provider names are; a file with duplicate names loads
into a `Config` with duplicate names. -/
theorem C7_provider_names :
    ∀ (env : Env) (fc : ConfigFile) (cfg : Config),
      from_file_and_env env fc = .ok cfg →
      (fc.providers ≠ [] →
        cfg.providers.map (fun p => p.name) =
          fc.providers.map (fun p => p.name))
    ∧ ((fc.providers.map (fun p => p.name)).Nodup →
        (cfg.providers.map (fun p => p.name)).Nodup) := by
  intro env fc cfg h
  have hb := (ffe_ok_inv env fc cfg h).1
  have hmain : fc.providers ≠ [] →
      cfg.providers.map (fun p => p.name) =
        fc.providers.map (fun p => p.name) := by
    intro hne
    rw [buildProviders_nonempty env fc hne] at hb
    injection hb with hb'
    rw [← hb', List.map_map]
    rfl
  refine ⟨hmain, ?_⟩
  intro hnd
  by_cases hne : fc.providers = []
  · rw [buildProviders_empty env fc hne] at hb
    rcases except_cases (buildLegacyProvider env fc) with ⟨e, he⟩ | ⟨p0, hp0⟩
    · rw [he] at hb
      simp [Except.map] at hb
    · rw [hp0] at hb
      simp only [Except.map] at hb
      injection hb with hb'
      rw [← hb']
      simp
  · rw [hmain hne]
    exact hnd

/-- C8: `Config::get_fallback_model` maps the claude prefix to the configured
claude fallback, the gpt and text prefixes to the openai fallback, the gemini
prefix to the gemini fallback, and every other prefix to `none`; when the
corresponding `fallback_models` field is unset the result is `none` as well. -/
theorem C8_fallback_model_table :
    ∀ c : Config,
      get_fallback_model c claudePfx = c.fallback_models.claude
    ∧ get_fallback_model c gptPfx = c.fallback_models.openai
    ∧ get_fallback_model c textPfx = c.fallback_models.openai
    ∧ get_fallback_model c geminiPfx = c.fallback_models.gemini
    ∧ (∀ pfx : Str, pfx ≠ claudePfx → pfx ≠ gptPfx → pfx ≠ textPfx →
        pfx ≠ geminiPfx → get_fallback_model c pfx = none) := by
  intro c
  refine ⟨?_, ?_, ?_, ?_, ?_⟩
  · unfold get_fallback_model
    rw [if_pos rfl]
  · unfold get_fallback_model
    rw [if_neg (by decide), if_pos (Or.inl rfl)]
  · unfold get_fallback_model
    rw [if_neg (by decide), if_pos (Or.inr rfl)]
  · unfold get_fallback_model
    rw [if_neg (by decide), if_neg (by decide), if_pos rfl]
  · intro pfx h1 h2 h3 h4
    unfold get_fallback_model
    rw [if_neg h1, if_neg (by rintro (h | h) <;> [exact h2 h; exact h3 h]),
        if_neg h4]

/-- C10: with an empty providers array, `from_file_and_env` builds exactly one
provider named "default" with weight 1 and enabled, whose token URL
(normalized), client id, client secret and API URL each come from the
corresponding environment variable when set and otherwise from the legacy
credentials section, and whose resource group comes from the RESOURCE_GROUP
env var, then the file's `resource_group`, then the default; loading fails
when any of the four required fields is available from neither source. -/
theorem C10_legacy_default_provider :
    ∀ (env : Env) (fc : ConfigFile), fc.providers = [] →
      (legacyAllAvailable env fc = false →
        ∃ e, from_file_and_env env fc = .error e)
    ∧ (∀ cfg, from_file_and_env env fc = .ok cfg →
        legacyAllAvailable env fc = true ∧
        cfg.providers =
          [{ name := ("default").toList
             uaa_token_url := normalize_oauth_token_url
               ((pickSource env.uaa_token_url Credentials.uaa_token_url
                  fc.credentials).getD [])
             uaa_client_id := (pickSource env.uaa_client_id
               Credentials.uaa_client_id fc.credentials).getD []
             uaa_client_secret := (pickSource env.uaa_client_secret
               Credentials.uaa_client_secret fc.credentials).getD []
             genai_api_url := (pickSource env.genai_api_url
               Credentials.aicore_api_url fc.credentials).getD []
             resource_group :=
               (env.resource_group.or fc.resource_group).getD
                 default_resource_group
             weight := 1
             enabled := true }]) := by
  intro env fc hp
  constructor
  · intro hfail
    obtain ⟨e, he⟩ := buildLegacyProvider_error_of_missing env fc hfail
    refine ⟨e, ffe_error_of_buildProviders_error env fc e ?_⟩
    rw [buildProviders_empty env fc hp, he]
    rfl
  · intro cfg h
    have hb := (ffe_ok_inv env fc cfg h).1
    rw [buildProviders_empty env fc hp] at hb
    rcases except_cases (buildLegacyProvider env fc) with ⟨e, he⟩ | ⟨p0, hp0⟩
    · rw [he] at hb
      simp [Except.map] at hb
    · rw [hp0] at hb
      simp only [Except.map] at hb
      injection hb with hb'
      obtain ⟨havail, hform⟩ := buildLegacyProvider_ok_inv env fc p0 hp0
      exact ⟨havail, by rw [← hb', hform]⟩

instance exceptDecEq {ε α : Type} [DecidableEq ε] [DecidableEq α] :
    DecidableEq (Except ε α) := fun x y =>
  match x, y with
  | .error a, .error b =>
    decidable_of_iff (a = b) ⟨fun h => by rw [h], fun h => by injection h⟩
  | .error _, .ok _ => .isFalse (fun h => Except.noConfusion h)
  | .ok _, .error _ => .isFalse (fun h => Except.noConfusion h)
  | .ok a, .ok b =>
    decidable_of_iff (a = b) ⟨fun h => by rw [h], fun h => by injection h⟩

/-- An environment with every variable unset. -/
def envNone : Env :=
  { uaa_token_url := none, uaa_client_id := none, uaa_client_secret := none
    genai_api_url := none, resource_group := none, api_key := none
    api_keys := none, port := none, log_level := none
    refresh_interval_secs := none, request_body_limit := none }

/-- An empty fallback table. -/
def fbNone : FallbackModels := { claude := none, openai := none, gemini := none }

/-- A concrete file provider entry used by the witnesses. -/
def pcW : ProviderConfig :=
  { name := ("p1").toList
    uaa_token_url := ("https://auth.example.com").toList
    uaa_client_id := ("id1").toList
    uaa_client_secret := ("sec1").toList
    genai_api_url := ("https://api.example.com").toList
    resource_group := none
    weight := 2
    enabled := true }

/-- A concrete model entry used by the witnesses. -/
def mA : Model :=
  { name := ("a").toList, aicore_model_name := some (("b").toList), aliases := [] }

/-- A concrete config file with one provider and one API key. -/
def fcW : ConfigFile :=
  { log_level := none
    credentials := none
    providers := [pcW]
    port := 8900
    models := [{ name := ("gpt-4").toList
                 aicore_model_name := some (("gpt-4-turbo").toList)
                 aliases := [] }]
    resource_group := none
    refresh_interval_secs := none
    fallback_models := fbNone
    api_keys := [("k1").toList]
    load_balancing := .RoundRobin
    request_body_limit := none }

/-- The runtime provider `fcW`'s entry loads to. -/
def provW : Provider :=
  { name := ("p1").toList
    uaa_token_url := ("https://auth.example.com/oauth/token").toList
    uaa_client_id := ("id1").toList
    uaa_client_secret := ("sec1").toList
    genai_api_url := ("https://api.example.com").toList
    resource_group := ("default").toList
    weight := 2
    enabled := true }

/-- The config `fcW` loads to under `envNone`. -/
def cfgW : Config :=
  { providers := [provW]
    api_keys := [("k1").toList]
    port := 8900
    models := [{ name := ("gpt-4").toList
                 aicore_model_name := some (("gpt-4-turbo").toList)
                 aliases := [] }]
    log_level := ("info").toList
    refresh_interval_secs := 300
    fallback_models := fbNone
    load_balancing := .RoundRobin
    request_body_limit := none }

/-- A file provider entry with weight 0 written in the file. -/
def pc0 : ProviderConfig :=
  { pcW with name := ("p0").toList, weight := 0 }

/-- A config file whose only provider has weight 0. -/
def fc6 : ConfigFile := { fcW with providers := [pc0] }

/-- The runtime provider `pc0` loads to: the weight 0 is kept. -/
def prov0 : Provider :=
  { provW with name := ("p0").toList, weight := 0 }

/-- The config `fc6` loads to under `envNone`. -/
def cfg6 : Config := { cfgW with providers := [prov0] }

/-- Two file provider entries sharing the name "a". -/
def pcDupA : ProviderConfig := { pcW with name := ("a").toList }

/-- Second file provider entry also named "a" (weights differ). -/
def pcDupB : ProviderConfig := { pcW with name := ("a").toList, weight := 1 }

/-- A config file with two providers of the same name. -/
def fc7 : ConfigFile := { fcW with providers := [pcDupA, pcDupB] }

/-- Runtime form of `pcDupA`. -/
def provDupA : Provider := { provW with name := ("a").toList }

/-- Runtime form of `pcDupB`. -/
def provDupB : Provider := { provW with name := ("a").toList, weight := 1 }

/-- The config `fc7` loads to under `envNone`: duplicate names survive. -/
def cfg7 : Config := { cfgW with providers := [provDupA, provDupB] }

/-- A config file with no providers and no credentials. -/
def fcBare : ConfigFile := { fcW with providers := [] }

/-- A config whose only provider is disabled. -/
def cfgDisabled : Config := { cfgW with providers := [{ provW with enabled := false }] }

/-- A config whose single model has no `aicore_model_name`. -/
def cfgC1 : Config :=
  { cfgW with models := [{ name := ("m").toList
                           aicore_model_name := none
                           aliases := [] }] }

/-- A config whose single model maps name "a" to upstream name "b". -/
def cfgM : Config := { cfgW with models := [mA] }

/-- A config with claude and openai fallbacks configured. -/
def cfgF : Config :=
  { cfgW with fallback_models :=
      { claude := some (("claude-sonnet-4-5").toList)
        openai := some (("gpt-4o").toList)
        gemini := none } }

/-- Legacy credentials carrying only an API key. -/
def credsK : Credentials :=
  { uaa_token_url := none, uaa_client_id := none, uaa_client_secret := none
    aicore_api_url := none, api_key := some (("k1").toList) }

/-- An environment supplying API_KEY and a comma-separated API_KEYS. -/
def envK : Env :=
  { envNone with api_key := some (("k1").toList)
                 api_keys := some (("k2, k1,").toList) }

/-- A config file with file-level API keys and a legacy credentials key. -/
def fcK : ConfigFile :=
  { fcW with credentials := some credsK
             api_keys := [("k2").toList, ("k3").toList] }

/-- The config `fcK` loads to under `envK`: keys de-duplicated in first-seen
order. -/
def cfgK : Config :=
  { cfgW with api_keys := [("k1").toList, ("k2").toList, ("k3").toList] }

/-- Legacy credentials with all connection fields set. -/
def creds10 : Credentials :=
  { uaa_token_url := some (("https://auth.example.com").toList)
    uaa_client_id := some (("cred-id").toList)
    uaa_client_secret := some (("cred-sec").toList)
    aicore_api_url := some (("https://api.example.com").toList)
    api_key := some (("k1").toList) }

/-- An environment overriding only the UAA client id. -/
def env10 : Env := { envNone with uaa_client_id := some (("env-id").toList) }

/-- A config file with no providers, legacy credentials, and a file-level
resource group. -/
def fc10 : ConfigFile :=
  { fcW with providers := []
             credentials := some creds10
             resource_group := some (("rg-file").toList)
             api_keys := [] }

/-- The legacy default provider `fc10` loads to under `env10`: env wins for
the client id, credentials fill the rest, the file resource group is used. -/
def prov10 : Provider :=
  { name := ("default").toList
    uaa_token_url := ("https://auth.example.com/oauth/token").toList
    uaa_client_id := ("env-id").toList
    uaa_client_secret := ("cred-sec").toList
    genai_api_url := ("https://api.example.com").toList
    resource_group := ("rg-file").toList
    weight := 1
    enabled := true }

/-- The config `fc10` loads to under `env10`. -/
def cfg10 : Config :=
  { cfgW with providers := [prov10], api_keys := [("k1").toList] }

/-- C1 counterexample: the loaded model table contains an entry whose
canonical name is "m", yet `get_aicore_model_name` returns `none` instead of
defaulting to the canonical name — refuting that `none` is returned only when
no entry matches. -/
theorem C1_counterexample :
    cfgC1.models.map (fun m => m.name) = [("m").toList] ∧
    get_aicore_model_name cfgC1 (("m").toList) = none := by
  decide

/-- C6 counterexample: a config file whose provider has weight 0 loads
successfully and the loaded provider's weight is 0, not ≥ 1. -/
theorem C6_counterexample :
    from_file_and_env envNone fc6 = .ok cfg6 ∧
    cfg6.providers.map (fun p => p.weight) = [0] := by
  decide

/-- C7 counterexample: a config file with two providers both named "a" loads
successfully into a config whose provider names are not pairwise distinct. -/
theorem C7_counterexample :
    from_file_and_env envNone fc7 = .ok cfg7 ∧
    ¬ (cfg7.providers.map (fun p => p.name)).Nodup := by
  decide

/-- Witness for C1 at a concrete table: the first (only) entry named "a" has
upstream name "b" and is returned; a name matching no entry yields none. -/
theorem C1_witness :
    get_aicore_model_name cfgM (("a").toList) = some (("b").toList) ∧
    get_aicore_model_name cfgM (("zzz").toList) = none := by
  constructor
  · exact (C1_get_aicore_model_name_first_match cfgM (("a").toList)).2
      [] mA [] rfl (by simp) rfl
  · exact (C1_get_aicore_model_name_first_match cfgM (("zzz").toList)).1
      (by decide)

/-- Witness for C2 at concrete URLs and a concrete config load. -/
theorem C2_witness :
    normalize_oauth_token_url (("https://auth.example.com/oauth/token").toList) =
      ("https://auth.example.com/oauth/token").toList ∧
    normalize_oauth_token_url (("https://auth.example.com/").toList) =
      ("https://auth.example.com/").toList ++ ("oauth/token").toList ∧
    normalize_oauth_token_url (("https://auth.example.com").toList) =
      ("https://auth.example.com").toList ++ ("/oauth/token").toList ∧
    cfgW.providers.map (fun p => p.uaa_token_url) =
      fcW.providers.map (fun p => normalize_oauth_token_url p.uaa_token_url) ∧
    oauthTokenPath <:+: provW.uaa_token_url := by
  refine ⟨?_, ?_, ?_, ?_, ?_⟩
  · exact C2_token_url_normalization.1 _ (by decide)
  · exact C2_token_url_normalization.2.1 _ (by decide) (by decide)
  · exact C2_token_url_normalization.2.2.1 _ (by decide) (by decide)
  · exact C2_token_url_normalization.2.2.2.1 envNone fcW cfgW (by decide) (by decide)
  · exact C2_token_url_normalization.2.2.2.2 envNone fcW cfgW (by decide)
      provW (by decide)

/-- Witness for C3 at a concrete load mixing both env vars, file keys and the
legacy credentials key, with duplicates. -/
theorem C3_witness :
    from_file_and_env envK fcK = .ok cfgK ∧
    cfgK.api_keys.Nodup ∧
    List.Sublist cfgK.api_keys (collect_api_keys envK fcK) ∧
    (("k3").toList ∈ cfgK.api_keys ↔ ("k3").toList ∈ collect_api_keys envK fcK) := by
  refine ⟨by decide, ?_, ?_, ?_⟩
  · exact (C3_api_keys_dedup envK fcK cfgK (by decide)).1
  · exact (C3_api_keys_dedup envK fcK cfgK (by decide)).2.1
  · exact (C3_api_keys_dedup envK fcK cfgK (by decide)).2.2.1 _

/-- Witness for C4 at a concrete successful load: the key list is non-empty. -/
theorem C4_witness :
    from_file_and_env envNone fcW = .ok cfgW ∧ cfgW.api_keys ≠ [] :=
  ⟨by decide, (C4_api_key_required envNone fcW).2 cfgW (by decide)⟩

/-- Witness for C5: a bare config file fails to load, and a config whose only
provider is disabled makes `run_server` fail with no startup effect. -/
theorem C5_witness :
    (from_file_and_env envNone fcBare).isOk = false ∧
    run_server cfgDisabled true true =
      ([], some ("No enabled providers configured")) := by
  constructor
  · obtain ⟨e, he⟩ :=
      (C5_enabled_provider_required envNone fcBare cfgDisabled true true).1
        rfl rfl rfl
    rw [he]
    rfl
  · exact (C5_enabled_provider_required envNone fcBare cfgDisabled true true).2
      (by decide)

/-- Witness for the amended C6 at a concrete load: the loaded weights equal
the file's weights verbatim. -/
theorem C6_witness :
    from_file_and_env envNone fc6 = .ok cfg6 ∧
    cfg6.providers.map (fun p => p.weight) =
      (if fc6.providers = [] then [1]
       else fc6.providers.map (fun p => p.weight)) :=
  ⟨by decide, C6_weight_passthrough envNone fc6 cfg6 (by decide)⟩

/-- Witness for the amended C7 at a concrete load with distinct file names. -/
theorem C7_witness :
    cfgW.providers.map (fun p => p.name) =
      fcW.providers.map (fun p => p.name) ∧
    (cfgW.providers.map (fun p => p.name)).Nodup :=
  ⟨(C7_provider_names envNone fcW cfgW (by decide)).1 (by decide),
   (C7_provider_names envNone fcW cfgW (by decide)).2 (by decide)⟩

/-- Witness for C8 at a concrete fallback table. -/
theorem C8_witness :
    get_fallback_model cfgF claudePfx = some (("claude-sonnet-4-5").toList) ∧
    get_fallback_model cfgF geminiPfx = none ∧
    get_fallback_model cfgF (("other").toList) = none := by
  refine ⟨?_, ?_, ?_⟩
  · exact (C8_fallback_model_table cfgF).1
  · exact (C8_fallback_model_table cfgF).2.2.2.1
  · exact (C8_fallback_model_table cfgF).2.2.2.2 _ (by decide) (by decide)
      (by decide) (by decide)

/-- Witness for C10 at a concrete legacy load: env overrides the client id,
credentials fill the other fields, the file resource group is used, and the
single provider is the expected "default" provider. -/
theorem C10_witness :
    from_file_and_env env10 fc10 = .ok cfg10 ∧
    legacyAllAvailable env10 fc10 = true ∧
    cfg10.providers = [prov10] := by
  refine ⟨by decide, ?_, ?_⟩
  · exact ((C10_legacy_default_provider env10 fc10 rfl).2 cfg10 (by decide)).1
  · exact (((C10_legacy_default_provider env10 fc10 rfl).2 cfg10
      (by decide)).2).trans (by decide)

end AicoreRouter
